import Mathlib

/-!
Verification of the ArchBot Retrieval & Ranking Engine against its design
specification.  The definitions below are a shallow embedding of
`src/rdb/retrieval/retriever.py` (`DocumentRetriever.search`) and
`src/rdb/retrieval/index_manager.py` (`IndexManager.load_index`).

Modelling conventions:
* Python strings are Lean `String`s; the character-level operations
  (`lower`, `split`, substring containment, slicing) are embedded as
  structural functions on `List Char` so that all predicates are decidable
  and kernel-evaluable.
* Python floats are embedded as exact rationals `ℚ`.
* Python `list[idx]` with possibly negative `idx` is embedded by `pyIndex`
  (negative indices address from the end; a fully out-of-range access is an
  `IndexError`, embedded as `none` and propagated as failure of `search`).
* The external capabilities (sentence-transformer embedding + FAISS index
  search, and the LLM query refiner) are parameters of the embedded
  retriever state: `retrieve` maps a (refined) query string and a
  neighbour count `k` to the row of `(score, index)` pairs FAISS returns,
  and `refiner` is an optional fallible rewrite function (`Except` models
  a raised exception).
-/

namespace ArchBot

/-! ## Character-level embeddings of the Python string operations -/

/-- Auxiliary splitter: cuts a character list at every whitespace
character, keeping the (possibly empty) fragments. -/
def splitWsAux : List Char → List Char → List (List Char)
  | [], acc => [acc.reverse]
  | c :: cs, acc =>
    if c.isWhitespace then acc.reverse :: splitWsAux cs []
    else splitWsAux cs (c :: acc)

/-- Embeds Python `str.split()` (no argument): split on whitespace runs,
discarding empty fragments. -/
def pySplit (s : List Char) : List (List Char) :=
  (splitWsAux s []).filter (fun w => w ≠ [])

/-- Embeds Python `str.lower()` (ASCII case folding). -/
def pyLower (s : List Char) : List Char := s.map Char.toLower

/-- Does the first list start with the second one? -/
def chStartsWith : List Char → List Char → Bool
  | _, [] => true
  | [], _ :: _ => false
  | a :: as, b :: bs => a == b && chStartsWith as bs

/-- Embeds Python `needle in hay` on strings: contiguous-substring test. -/
def chContains : List Char → List Char → Bool
  | [], needle => needle.isEmpty
  | a :: as, needle => chStartsWith (a :: as) needle || chContains as needle

/-- Substring test on whole strings. -/
def strContains (hay needle : String) : Bool := chContains hay.data needle.data

/-- Embeds `set(s.split())` on an (already lowercased) character list. -/
def wordSet (s : List Char) : Finset (List Char) := (pySplit s).toFinset

/-- Embeds `set(q.lower().split())` (retriever.py lines 96-97). -/
def qwords (q : String) : Finset (List Char) := wordSet (pyLower q.data)

/-- Embeds `set(page_title.replace('_', ' ').replace('/', ' ').split())`
(retriever.py line 188); `pt` is the already lowercased title. -/
def titleWords (pt : List Char) : Finset (List Char) :=
  wordSet (pt.map (fun c => if c == '_' || c == '/' then ' ' else c))

/-! ## Data model -/

/-- A corpus chunk as stored in the index metadata (spec §3; the fields
read by `DocumentRetriever.search`, retriever.py lines 84-92). -/
structure Chunk where
  page_title : String
  section_path : String
  url : String
  content : String
  chunk_type : String
  section_level : Nat
deriving DecidableEq, Repr

/-- One formatted search result (the dict built at retriever.py
lines 81-93). -/
structure SearchResult where
  rank : Nat
  score : ℚ
  page_title : String
  section_path : String
  url : String
  content : String
  chunk_type : String
  section_level : Nat
  original_query : String
  final_query : String
  full_chunk : Chunk
deriving DecidableEq, Repr

/-! ## Scoring policy (retriever.py lines 95-199)

Each numbered block of the Python scoring loop becomes one `apply…`
function transforming the accumulated score, exactly mirroring the
in-place `result['score'] *= …` updates. -/

/-- Condition of block 1, first branch (retriever.py line 107). -/
def isNetworkConfigTitle (pt : List Char) : Bool :=
  chContains pt "network_configuration".data ||
  chContains pt "network configuration".data

/-- Patterns of block 1, second branch (retriever.py lines 111-114). -/
def guidePatterns : List String :=
  ["installation_guide", "installation guide", "system administration",
   "getting started", "beginners guide", "general configuration"]

/-- Condition of block 1, second branch. -/
def isGuideTitle (pt : List Char) : Bool :=
  guidePatterns.any (fun p => chContains pt p.data)

/-- Block 1: authoritative guide detection (retriever.py lines 105-115). -/
def applyAuth (pt : List Char) (s : ℚ) : ℚ :=
  if isNetworkConfigTitle pt then s * (3/2)
  else if isGuideTitle pt then s * (13/10)
  else s

/-- Topic mapping table (retriever.py lines 119-131). -/
def topicMappings : List (List Char × List (List Char)) :=
  [("wifi".data, ["wireless".data, "wi-fi".data, "network".data, "iwctl".data,
     "networkmanager".data]),
   ("wireless".data, ["wi-fi".data, "network".data, "iwctl".data,
     "networkmanager".data]),
   ("internet".data, ["network".data, "connection".data, "dhcp".data]),
   ("connect".data, ["connection".data, "setup".data, "configuration".data]),
   ("setup".data, ["configuration".data, "install".data, "guide".data]),
   ("install".data, ["installation".data, "setup".data, "guide".data]),
   ("sound".data, ["audio".data, "alsa".data, "pulseaudio".data]),
   ("audio".data, ["sound".data, "alsa".data, "pulseaudio".data]),
   ("graphics".data, ["video".data, "gpu".data, "driver".data, "xorg".data]),
   ("boot".data, ["grub".data, "systemd".data, "bootloader".data]),
   ("package".data, ["pacman".data, "aur".data, "makepkg".data])]

/-- Condition of block 2 (retriever.py lines 134-139): some word of the
union of the two query-word sets maps to a topic cluster one of whose
terms occurs in the title or the first 500 characters of the content.
The Python loop iterates the union set and applies the single ×1.2
multiplier at the first hit, so the outcome only depends on whether some
word hits; a traversal of the concatenated word lists is equivalent. -/
def topicHit (ws : List (List Char)) (pt c500 : List Char) : Bool :=
  ws.any (fun w =>
    match topicMappings.lookup w with
    | some terms => terms.any (fun t => chContains pt t || chContains c500 t)
    | none => false)

/-- Block 2: topic relevance boosting (retriever.py lines 117-139). -/
def applyTopic (ws : List (List Char)) (pt c500 : List Char) (s : ℚ) : ℚ :=
  if topicHit ws pt c500 then s * (6/5) else s

/-- Indicator words of block 3 (retriever.py lines 142-145). -/
def comprehensivenessIndicators : List String :=
  ["configuration", "setup", "installation", "troubleshooting",
   "overview", "guide", "manual", "documentation"]

/-- `comprehensiveness_score` (retriever.py lines 147-148). -/
def comprCount (pt sp : List Char) : Nat :=
  (comprehensivenessIndicators.filter
    (fun ind => chContains pt ind.data || chContains sp ind.data)).length

/-- Block 3: comprehensiveness boost (retriever.py lines 141-151). -/
def applyCompr (pt sp : List Char) (s : ℚ) : ℚ :=
  if 2 ≤ comprCount pt sp then s * (5/4) else s

/-- Block 4a: content length tiers (retriever.py lines 153-158);
`content` is the raw (not lowercased) content string. -/
def applyLength (content : String) (s : ℚ) : ℚ :=
  if 1000 < content.length then s * (23/20)
  else if 500 < content.length then s * (11/10)
  else s

/-- Indicator words of block 4b (retriever.py line 161). -/
def configIndicators : List String :=
  ["install", "configure", "setup", "enable", "edit", "create"]

/-- `config_count` (retriever.py line 162). -/
def configCount (c : List Char) : Nat :=
  (configIndicators.filter (fun ind => chContains c ind.data)).length

/-- Block 4b: configuration-method count boost (retriever.py
lines 160-164). -/
def applyConfig (c : List Char) (s : ℚ) : ℚ :=
  if 3 ≤ configCount c then s * (11/10) else s

/-- Shell command tokens of block 4c (retriever.py line 167). -/
def shellCommands : List String := ["sudo", "systemctl", "pacman"]

/-- Condition of block 4c: a fenced code block in the raw content, or a
known shell command in the lowercased content. -/
def hasCodeIndicator (raw : String) (c : List Char) : Bool :=
  chContains raw.data "```".data ||
  shellCommands.any (fun cmd => chContains c cmd.data)

/-- Block 4c: code/command presence boost (retriever.py lines 166-168). -/
def applyCode (raw : String) (c : List Char) (s : ℚ) : ℚ :=
  if hasCodeIndicator raw c then s * (21/20) else s

/-- Overview-intent words (retriever.py lines 172-173). -/
def overviewWords : List String := ["how", "setup", "configure", "install", "guide"]

/-- `user_wants_overview` (retriever.py lines 172-173): substring test of
each overview word against the lowercased original query. -/
def userWantsOverview (oqLower : List Char) : Bool :=
  overviewWords.any (fun w => chContains oqLower w.data)

/-- Block 5: chunk type optimization (retriever.py lines 170-185). -/
def applyChunkType (oqLower : List Char) (ct : String) (s : ℚ) : ℚ :=
  if userWantsOverview oqLower then
    if ct = "large" then s * (6/5)
    else if ct = "medium" then s * (11/10)
    else if ct = "small" then s * (19/20)
    else s
  else
    if ct = "small" then s * (11/10) else s

/-- `match_ratio` (retriever.py lines 194 and 198): fraction of the query
words that occur in the title words, `0` when the query-word set is
empty. -/
def matchRatio (w tw : Finset (List Char)) : ℚ :=
  if w.card ≠ 0 then ((w ∩ tw).card : ℚ) / (w.card : ℚ) else 0

/-- Block 6, one of the two exact-match boosts (retriever.py
lines 193-199): if the word set `w` intersects the title words, multiply
by `1 + match_ratio * ceil` (with `ceil = 1/2` for the refined query and
`ceil = 3/10` for the original query). -/
def applyExact (w tw : Finset (List Char)) (ceil : ℚ) (s : ℚ) : ℚ :=
  if (w ∩ tw).Nonempty then s * (1 + matchRatio w tw * ceil) else s

/-- Embeds the whole per-result scoring loop body (retriever.py
lines 99-199): starting from the base cosine similarity `r.score`, apply
blocks 1-6 in program order.  `query` is the final (possibly refined)
query, `original_query` the raw user query. -/
def boostScore (query original_query : String) (r : SearchResult) : ℚ :=
  let query_words := qwords query
  let original_query_words := qwords original_query
  let pt := pyLower r.page_title.data
  let sp := pyLower r.section_path.data
  let c := pyLower r.content.data
  let s1 := applyAuth pt r.score
  let s2 := applyTopic (pySplit (pyLower query.data) ++ pySplit (pyLower original_query.data))
              pt (c.take 500) s1
  let s3 := applyCompr pt sp s2
  let s4 := applyLength r.content s3
  let s5 := applyConfig c s4
  let s6 := applyCode r.content c s5
  let s7 := applyChunkType (pyLower original_query.data) r.chunk_type s6
  let tw := titleWords pt
  let s8 := applyExact query_words tw (1/2) s7
  let s9 := applyExact original_query_words tw (3/10) s8
  s9

/-! ## Factor decomposition of the scoring policy

Every `apply…` step multiplies the running score by a fixed strictly
positive factor (or leaves it unchanged, i.e. multiplies by `1`).  The
`…Factor` functions isolate those multipliers. -/

/-- Multiplier of block 1. -/
def authFactor (pt : List Char) : ℚ :=
  if isNetworkConfigTitle pt then 3/2
  else if isGuideTitle pt then 13/10
  else 1

/-- Multiplier of block 2. -/
def topicFactor (ws : List (List Char)) (pt c500 : List Char) : ℚ :=
  if topicHit ws pt c500 then 6/5 else 1

/-- Multiplier of block 3. -/
def comprFactor (pt sp : List Char) : ℚ :=
  if 2 ≤ comprCount pt sp then 5/4 else 1

/-- Multiplier of block 4a. -/
def lengthFactor (content : String) : ℚ :=
  if 1000 < content.length then 23/20
  else if 500 < content.length then 11/10
  else 1

/-- Multiplier of block 4b. -/
def configFactor (c : List Char) : ℚ :=
  if 3 ≤ configCount c then 11/10 else 1

/-- Multiplier of block 4c. -/
def codeFactor (raw : String) (c : List Char) : ℚ :=
  if hasCodeIndicator raw c then 21/20 else 1

/-- Multiplier of block 5. -/
def chunkTypeFactor (oqLower : List Char) (ct : String) : ℚ :=
  if userWantsOverview oqLower then
    if ct = "large" then 6/5
    else if ct = "medium" then 11/10
    else if ct = "small" then 19/20
    else 1
  else
    if ct = "small" then 11/10 else 1

/-- Multiplier of one exact-match boost of block 6. -/
def exactFactor (w tw : Finset (List Char)) (ceil : ℚ) : ℚ :=
  if (w ∩ tw).Nonempty then 1 + matchRatio w tw * ceil else 1

/-- Product of the multipliers of blocks 1-5 (everything before the
exact-match boosts). -/
def preFactor (query original_query : String) (r : SearchResult) : ℚ :=
  authFactor (pyLower r.page_title.data) *
  topicFactor (pySplit (pyLower query.data) ++ pySplit (pyLower original_query.data))
    (pyLower r.page_title.data) ((pyLower r.content.data).take 500) *
  comprFactor (pyLower r.page_title.data) (pyLower r.section_path.data) *
  lengthFactor r.content *
  configFactor (pyLower r.content.data) *
  codeFactor r.content (pyLower r.content.data) *
  chunkTypeFactor (pyLower original_query.data) r.chunk_type

/-- Product of all multipliers applied by the scoring policy. -/
def totalFactor (query original_query : String) (r : SearchResult) : ℚ :=
  preFactor query original_query r *
  exactFactor (qwords query) (titleWords (pyLower r.page_title.data)) (1/2) *
  exactFactor (qwords original_query) (titleWords (pyLower r.page_title.data)) (3/10)


/-! ## The retrieval pipeline (retriever.py lines 42-208) -/

/-- Embeds Python list indexing `l[i]` with a possibly negative `i`:
negative indices address from the end of the list, and an index that is
still out of range raises `IndexError`, embedded as `none`. -/
def pyIndex (l : List Chunk) (i : Int) : Option Chunk :=
  if 0 ≤ i then l.get? i.toNat
  else if 0 ≤ (l.length : Int) + i then l.get? ((l.length : Int) + i).toNat
  else none

/-- The result dict built for one candidate (retriever.py lines 81-93);
`rank` is the 1-based enumeration position. -/
def buildResult (rank : Nat) (score : ℚ) (oq fq : String) (c : Chunk) :
    SearchResult :=
  { rank := rank, score := score, page_title := c.page_title,
    section_path := c.section_path, url := c.url, content := c.content,
    chunk_type := c.chunk_type, section_level := c.section_level,
    original_query := oq, final_query := fq, full_chunk := c }

/-- Embeds the result-formatting loop (retriever.py lines 77-93) over the
enumerated `(i, (score, idx))` triples: a candidate with `idx <
len(chunks)` is looked up by Python indexing and appended; candidates with
`idx ≥ len(chunks)` are silently dropped; a failing lookup is an
`IndexError` aborting the whole call (`none`). -/
def formatResults (chunks : List Chunk) (oq fq : String) :
    List (Nat × ℚ × Int) → Option (List SearchResult)
  | [] => some []
  | (i, score, idx) :: rest =>
    if idx < (chunks.length : Int) then
      match pyIndex chunks idx with
      | none => none
      | some c =>
        (formatResults chunks oq fq rest).map
          (fun rs => buildResult (i + 1) score oq fq c :: rs)
    else formatResults chunks oq fq rest

/-- Stable descending insertion of a result into an already sorted list:
`r` goes in front of the first element whose score is not larger, so
earlier elements win ties. -/
def insertDesc (r : SearchResult) : List SearchResult → List SearchResult
  | [] => [r]
  | x :: xs => if x.score ≤ r.score then r :: x :: xs else x :: insertDesc r xs

/-- Embeds `results.sort(key=lambda x: x['score'], reverse=True)`
(retriever.py line 202): Python list.sort is a stable sort; a stable
descending sort is realised by right-to-left insertion. -/
def sortDesc : List SearchResult → List SearchResult
  | [] => []
  | r :: rest => insertDesc r (sortDesc rest)

/-- Embeds the rank-reassignment loop (retriever.py lines 205-206). -/
def reRank (l : List SearchResult) : List SearchResult :=
  l.enum.map (fun p => { p.2 with rank := p.1 + 1 })

/-- Embeds the refinement step (retriever.py lines 54-64): if refinement
is requested and a refiner is available, try it; a raised exception
(`Except.error`) is caught and the original query is kept. -/
def refineStep (refiner : Option (String → Except String String))
    (refine_query : Bool) (q : String) : String :=
  if refine_query then
    match refiner with
    | some f =>
      match f q with
      | Except.ok r => r
      | Except.error _ => q
    | none => q
  else q

/-- The loaded retriever state: the chunk metadata array, the composite
external capability `retrieve` (query encoding + normalisation + FAISS
`index.search`, returning the single row of `(score, index)` pairs), and
the optional fallible query refiner. -/
structure RetrieverState where
  chunks : List Chunk
  retrieve : String → Nat → List (ℚ × Int)
  refiner : Option (String → Except String String)

/-- The single request `search` issues to the index (retriever.py
line 74): the refined query together with the neighbour count, which is
exactly `top_k`. -/
def searchRequest (st : RetrieverState) (query : String) (top_k : Nat)
    (refine_query : Bool) : String × Nat :=
  (refineStep st.refiner refine_query query, top_k)

/-- Embeds `DocumentRetriever.search` (retriever.py lines 42-208) on a
loaded index: refine, retrieve `top_k` candidates, format, boost every
score, stable-sort descending, reassign ranks.  `show_refinement` only
controls logging and has no effect on the result.  `none` models a raised
`IndexError` (impossible for well-formed FAISS output). -/
def search (st : RetrieverState) (query : String) (top_k : Nat)
    (refine_query : Bool) (show_refinement : Bool) :
    Option (List SearchResult) :=
  let original_query := query
  let fq := (searchRequest st query top_k refine_query).1
  let pairs := st.retrieve fq (searchRequest st query top_k refine_query).2
  match formatResults st.chunks original_query fq pairs.enum with
  | none => none
  | some results =>
    let boosted := results.map
      (fun r => { r with score := boostScore fq original_query r })
    some (reRank (sortDesc boosted))

/-! ## Index loading (index_manager.py lines 25-56) -/

/-- The part of a loaded FAISS index the loader inspects. -/
structure FaissIndex where
  ntotal : Nat
deriving DecidableEq, Repr

/-- The on-disk state `load_index` reads: `none` models a missing file,
`some v` a file that exists and deserialises to `v`.  (A file that exists
but fails to deserialise raises inside the `try` block and also yields
`False`; it is subsumed by the missing-file case for the properties
below.) -/
structure IndexStore where
  index_file : Option FaissIndex
  metadata_file : Option (List Chunk)

/-- Embeds `IndexManager.load_index` (index_manager.py lines 25-56):
returns the success flag together with the loaded index and chunk list.
The function checks only that both files exist and load; it performs no
comparison between `index.ntotal` and `len(chunks)`. -/
def load_index (store : IndexStore) :
    Bool × Option FaissIndex × Option (List Chunk) :=
  match store.index_file with
  | none => (false, none, none)
  | some ix =>
    match store.metadata_file with
    | none => (false, none, none)
    | some chunks => (true, some ix, some chunks)

/-! ## Concrete instances used in counterexamples and witnesses -/

/-- A neutral chunk: its title, content and type trigger none of the
scoring-policy boosts for the queries used below. -/
def cAlpha : Chunk := ⟨"Alpha", "Sec", "u1", "zz", "medium", 1⟩

/-- A second neutral chunk. -/
def cBeta : Chunk := ⟨"Beta", "Sec", "u2", "yy", "medium", 1⟩

/-- A two-chunk retriever whose index returns both chunks for `k = 2`. -/
def stPlain : RetrieverState :=
  ⟨[cAlpha, cBeta], fun _ k => if k = 2 then [(9, 0), (8, 1)] else [], none⟩

/-- The result list `search stPlain "qq" 2` produces. -/
def demoRes : List SearchResult :=
  [buildResult 1 9 "qq" "qq" cAlpha, buildResult 2 8 "qq" "qq" cBeta]

/-- A single neutral result with positive base score. -/
def demoResult : SearchResult := buildResult 1 9 "qq" "qq" cAlpha

/-- Chunk titled "Wi-Fi"; same content as [chunkwifi]. -/
def chunkWiFi : Chunk := ⟨"Wi-Fi", "Sec", "u1", "xx", "medium", 1⟩

/-- Chunk titled "wifi"; same content as [chunkWiFi]. -/
def chunkwifi : Chunk := ⟨"wifi", "Sec", "u2", "xx", "medium", 1⟩

/-- A retriever over the two alias-titled chunks with identical content. -/
def stDup : RetrieverState :=
  ⟨[chunkWiFi, chunkwifi], fun _ k => if k = 2 then [(9, 0), (8, 1)] else [],
   none⟩

/-- The result list `search stDup "anything" 2` produces: both duplicate
chunks, kept separate. -/
def dupRes : List SearchResult :=
  [buildResult 1 9 "anything" "anything" chunkWiFi,
   buildResult 2 8 "anything" "anything" chunkwifi]

/-- Modelled from the spec: the Deduplicator's `normalize_title` (spec
§4.3: lowercase, strip punctuation and whitespace so that textual
variants such as "Wi-Fi"/"wifi" fold to the same key).  The repository
contains no deduplication code at all — no `normalize_title`, no alias
lists, no dedup pass exist anywhere in the source — so this definition
only serves to express the dedup-key premise of the claim it refutes. -/
def specNormalizeTitle (t : String) : List Char :=
  (pyLower t.data).filter (fun c => c.isAlpha || c.isDigit)

/-- A retriever whose index answers differently for `k = 2` and other
`k`: the `k = 2` row holds `cAlpha`, every other row holds `cBeta`. -/
def stOverA : RetrieverState :=
  ⟨[cAlpha, cBeta], fun _ k => if k = 2 then [(9, 0)] else [(8, 1)], none⟩

/-- Like [stOverA] but with different answers outside `k = 2`. -/
def stOverB : RetrieverState :=
  ⟨[cAlpha, cBeta], fun _ k => if k = 2 then [(9, 0)] else [(7, 0)], none⟩

/-- An on-disk state with 1 index vector and 2 metadata chunks. -/
def demoStore : IndexStore := ⟨some ⟨1⟩, some [cAlpha, cBeta]⟩

/-- A retriever whose refiner raises on every call. -/
def stFail : RetrieverState :=
  ⟨[cAlpha, cBeta], fun _ k => if k = 2 then [(9, 0), (8, 1)] else [],
   some (fun _ => Except.error "boom")⟩

/-- A one-chunk retriever whose index holds fewer vectors than `top_k`,
so FAISS pads the answer row with index `-1`. -/
def stPad : RetrieverState :=
  ⟨[cAlpha], fun _ k => if k = 2 then [(9, 0), (4, -1)] else [], none⟩

/-- The result list `search stPad "qq" 2` produces: the `-1` padding
entry resolves, via Python negative indexing, to the last corpus chunk. -/
def padRes : List SearchResult :=
  [buildResult 1 9 "qq" "qq" cAlpha, buildResult 2 4 "qq" "qq" cAlpha]

/-! ## Factor decomposition and positivity of the scoring policy -/

theorem applyAuth_eq (pt : List Char) (s : ℚ) :
    applyAuth pt s = s * authFactor pt := by
  unfold applyAuth authFactor; split_ifs <;> ring

theorem applyTopic_eq (ws : List (List Char)) (pt c500 : List Char) (s : ℚ) :
    applyTopic ws pt c500 s = s * topicFactor ws pt c500 := by
  unfold applyTopic topicFactor; split_ifs <;> ring

theorem applyCompr_eq (pt sp : List Char) (s : ℚ) :
    applyCompr pt sp s = s * comprFactor pt sp := by
  unfold applyCompr comprFactor; split_ifs <;> ring

theorem applyLength_eq (content : String) (s : ℚ) :
    applyLength content s = s * lengthFactor content := by
  unfold applyLength lengthFactor; split_ifs <;> ring

theorem applyConfig_eq (c : List Char) (s : ℚ) :
    applyConfig c s = s * configFactor c := by
  unfold applyConfig configFactor; split_ifs <;> ring

theorem applyCode_eq (raw : String) (c : List Char) (s : ℚ) :
    applyCode raw c s = s * codeFactor raw c := by
  unfold applyCode codeFactor; split_ifs <;> ring

theorem applyChunkType_eq (oqLower : List Char) (ct : String) (s : ℚ) :
    applyChunkType oqLower ct s = s * chunkTypeFactor oqLower ct := by
  unfold applyChunkType chunkTypeFactor; split_ifs <;> ring

theorem applyExact_eq (w tw : Finset (List Char)) (ceil s : ℚ) :
    applyExact w tw ceil s = s * exactFactor w tw ceil := by
  unfold applyExact exactFactor; split_ifs <;> ring

/-- The scoring loop is the base similarity times the product of all the
policy multipliers. -/
theorem boostScore_eq_mul (query original_query : String) (r : SearchResult) :
    boostScore query original_query r =
      r.score * totalFactor query original_query r := by
  unfold boostScore totalFactor preFactor
  simp only [applyAuth_eq, applyTopic_eq, applyCompr_eq, applyLength_eq,
    applyConfig_eq, applyCode_eq, applyChunkType_eq, applyExact_eq]
  ring

theorem authFactor_pos (pt : List Char) : 0 < authFactor pt := by
  unfold authFactor; split_ifs <;> norm_num

theorem topicFactor_pos (ws : List (List Char)) (pt c500 : List Char) :
    0 < topicFactor ws pt c500 := by
  unfold topicFactor; split_ifs <;> norm_num

theorem comprFactor_pos (pt sp : List Char) : 0 < comprFactor pt sp := by
  unfold comprFactor; split_ifs <;> norm_num

theorem lengthFactor_pos (content : String) : 0 < lengthFactor content := by
  unfold lengthFactor; split_ifs <;> norm_num

theorem configFactor_pos (c : List Char) : 0 < configFactor c := by
  unfold configFactor; split_ifs <;> norm_num

theorem codeFactor_pos (raw : String) (c : List Char) : 0 < codeFactor raw c := by
  unfold codeFactor; split_ifs <;> norm_num

theorem chunkTypeFactor_pos (oqLower : List Char) (ct : String) :
    0 < chunkTypeFactor oqLower ct := by
  unfold chunkTypeFactor; split_ifs <;> norm_num

theorem matchRatio_nonneg (w tw : Finset (List Char)) : 0 ≤ matchRatio w tw := by
  unfold matchRatio
  split_ifs
  · exact div_nonneg (by positivity) (by positivity)
  · exact le_refl 0

theorem exactFactor_pos (w tw : Finset (List Char)) (ceil : ℚ)
    (hceil : 0 ≤ ceil) : 0 < exactFactor w tw ceil := by
  unfold exactFactor
  split_ifs
  · have h := mul_nonneg (matchRatio_nonneg w tw) hceil
    linarith
  · norm_num

theorem preFactor_pos (query original_query : String) (r : SearchResult) :
    0 < preFactor query original_query r := by
  unfold preFactor
  exact mul_pos (mul_pos (mul_pos (mul_pos (mul_pos (mul_pos
    (authFactor_pos _) (topicFactor_pos _ _ _)) (comprFactor_pos _ _))
    (lengthFactor_pos _)) (configFactor_pos _)) (codeFactor_pos _ _))
    (chunkTypeFactor_pos _ _)

theorem totalFactor_pos (query original_query : String) (r : SearchResult) :
    0 < totalFactor query original_query r := by
  unfold totalFactor
  exact mul_pos (mul_pos (preFactor_pos _ _ _)
    (exactFactor_pos _ _ _ (by norm_num))) (exactFactor_pos _ _ _ (by norm_num))

/-! ## Helper lemmas about the pipeline stages -/

theorem insertDesc_length (r : SearchResult) (l : List SearchResult) :
    (insertDesc r l).length = l.length + 1 := by
  induction l with
  | nil => rfl
  | cons x xs ih =>
    unfold insertDesc
    split_ifs <;> simp [ih]

theorem sortDesc_length (l : List SearchResult) :
    (sortDesc l).length = l.length := by
  induction l with
  | nil => rfl
  | cons x xs ih => unfold sortDesc; rw [insertDesc_length, ih]; rfl

theorem mem_insertDesc {a r : SearchResult} {l : List SearchResult} :
    a ∈ insertDesc r l ↔ a = r ∨ a ∈ l := by
  induction l with
  | nil => simp [insertDesc]
  | cons x xs ih =>
    unfold insertDesc
    split_ifs
    · simp
    · simp [ih]
      tauto

theorem mem_sortDesc {a : SearchResult} {l : List SearchResult} :
    a ∈ sortDesc l ↔ a ∈ l := by
  induction l with
  | nil => simp [sortDesc]
  | cons x xs ih => simp [sortDesc, mem_insertDesc, ih]

theorem insertDesc_pairwise {r : SearchResult} {l : List SearchResult}
    (h : List.Pairwise (fun a b => b.score ≤ a.score) l) :
    List.Pairwise (fun a b => b.score ≤ a.score) (insertDesc r l) := by
  induction l with
  | nil => simp [insertDesc]
  | cons x xs ih =>
    rcases List.pairwise_cons.1 h with ⟨hx, hxs⟩
    unfold insertDesc
    split_ifs with hle
    · refine List.pairwise_cons.2 ⟨?_, h⟩
      intro b hb
      rcases List.mem_cons.1 hb with hb | hb
      · exact hb ▸ hle
      · exact le_trans (hx b hb) hle
    · refine List.pairwise_cons.2 ⟨?_, ih hxs⟩
      intro b hb
      rcases mem_insertDesc.1 hb with hb | hb
      · exact hb ▸ le_of_lt (lt_of_not_le hle)
      · exact hx b hb

/-- The stable descending sort sorts: scores are non-increasing. -/
theorem sortDesc_pairwise (l : List SearchResult) :
    List.Pairwise (fun a b => b.score ≤ a.score) (sortDesc l) := by
  induction l with
  | nil => simp [sortDesc]
  | cons x xs ih => exact insertDesc_pairwise ih

theorem reRank_length (l : List SearchResult) :
    (reRank l).length = l.length := by
  simp [reRank]

theorem reRank_map_rank (l : List SearchResult) :
    (reRank l).map SearchResult.rank = (List.range l.length).map (· + 1) := by
  unfold reRank
  rw [List.map_map]
  have h1 : (SearchResult.rank ∘ fun p : Nat × SearchResult =>
      { p.2 with rank := p.1 + 1 }) = (fun n => n + 1) ∘ Prod.fst := rfl
  rw [h1, ← List.map_map, List.enum_map_fst]

theorem reRank_map_score (l : List SearchResult) :
    (reRank l).map SearchResult.score = l.map SearchResult.score := by
  unfold reRank
  rw [List.map_map]
  have h1 : (SearchResult.score ∘ fun p : Nat × SearchResult =>
      { p.2 with rank := p.1 + 1 }) = SearchResult.score ∘ Prod.snd := rfl
  rw [h1, ← List.map_map, List.enum_map_snd]

theorem exists_mem_enum {α : Type} {l : List α} {a : α} (h : a ∈ l) :
    ∃ i, (i, a) ∈ l.enum := by
  have h2 : a ∈ l.enum.map Prod.snd := by rw [List.enum_map_snd]; exact h
  rcases List.mem_map.1 h2 with ⟨p, hp, hpa⟩
  exact ⟨p.1, by rwa [show (p.1, a) = p by rw [← hpa]]⟩

theorem snd_mem_of_mem_enum {α : Type} {l : List α} {p : Nat × α}
    (h : p ∈ l.enum) : p.2 ∈ l := by
  rw [← List.enum_map_snd l]
  exact List.mem_map.2 ⟨p, h, rfl⟩

/-- Every member of the output of `reRank` is a member of the input with
only its rank changed. -/
theorem mem_reRank_inv {r' : SearchResult} {l : List SearchResult}
    (h : r' ∈ reRank l) :
    ∃ r ∈ l, r'.score = r.score ∧ r'.page_title = r.page_title ∧
      r'.original_query = r.original_query ∧ r'.final_query = r.final_query ∧
      r'.full_chunk = r.full_chunk := by
  rcases List.mem_map.1 h with ⟨p, hp, hr⟩
  exact ⟨p.2, snd_mem_of_mem_enum hp, by rw [← hr]; exact ⟨rfl, rfl, rfl, rfl, rfl⟩⟩

/-- Conversely every member of the input survives `reRank` with only its
rank changed. -/
theorem mem_reRank_of_mem {r : SearchResult} {l : List SearchResult}
    (h : r ∈ l) :
    ∃ r' ∈ reRank l, r'.score = r.score ∧ r'.page_title = r.page_title ∧
      r'.full_chunk = r.full_chunk := by
  rcases exists_mem_enum h with ⟨i, hi⟩
  refine ⟨{ r with rank := i + 1 }, List.mem_map.2 ⟨(i, r), hi, rfl⟩, rfl, rfl, rfl⟩

/-- Counting over an enumerated list with a predicate on the payload is
counting over the original list. -/
theorem length_filter_enum {α : Type} (p : α → Bool) (l : List α) :
    (l.enum.filter (fun q => p q.2)).length = (l.filter p).length := by
  rw [← List.countP_eq_length_filter, ← List.countP_eq_length_filter]
  have h1 : List.countP p (l.enum.map Prod.snd) =
      List.countP (fun q : Nat × α => p q.2) l.enum := List.countP_map _ _ _
  rw [List.enum_map_snd] at h1
  exact h1.symm

/-- `formatResults` succeeds with exactly one result per candidate whose
index passes the bound check `idx < len(chunks)`. -/
theorem formatResults_length (chunks : List Chunk) (oq fq : String) :
    ∀ (l : List (Nat × ℚ × Int)) (rs : List SearchResult),
      formatResults chunks oq fq l = some rs →
      rs.length =
        (l.filter (fun t => decide (t.2.2 < (chunks.length : Int)))).length := by
  intro l
  induction l with
  | nil =>
    intro rs h
    simp only [formatResults, Option.some.injEq] at h
    simp [← h]
  | cons hd tl ih =>
    rcases hd with ⟨i, sc, idx⟩
    intro rs h
    unfold formatResults at h
    by_cases hidx : idx < (chunks.length : Int)
    · rw [if_pos hidx] at h
      cases hpy : pyIndex chunks idx with
      | none => rw [hpy] at h; exact absurd h (by simp)
      | some c =>
        rw [hpy] at h
        cases hrec : formatResults chunks oq fq tl with
        | none => rw [hrec] at h; exact absurd h (by simp)
        | some rs' =>
          rw [hrec] at h
          simp only [Option.map_some', Option.some.injEq] at h
          rw [← h]
          simp [List.filter_cons, hidx, ih rs' hrec]
    · rw [if_neg hidx] at h
      simp [List.filter_cons, hidx, ih rs h]

/-- Every result produced by the formatting loop carries the original and
the final query it was given. -/
theorem formatResults_fields (chunks : List Chunk) (oq fq : String) :
    ∀ (l : List (Nat × ℚ × Int)) (rs : List SearchResult),
      formatResults chunks oq fq l = some rs →
      ∀ r ∈ rs, r.original_query = oq ∧ r.final_query = fq := by
  intro l
  induction l with
  | nil =>
    intro rs h
    simp only [formatResults, Option.some.injEq] at h
    simp [← h]
  | cons hd tl ih =>
    rcases hd with ⟨i, sc, idx⟩
    intro rs h r hr
    unfold formatResults at h
    by_cases hidx : idx < (chunks.length : Int)
    · rw [if_pos hidx] at h
      cases hpy : pyIndex chunks idx with
      | none => rw [hpy] at h; exact absurd h (by simp)
      | some c =>
        rw [hpy] at h
        cases hrec : formatResults chunks oq fq tl with
        | none => rw [hrec] at h; exact absurd h (by simp)
        | some rs' =>
          rw [hrec] at h
          simp only [Option.map_some', Option.some.injEq] at h
          rw [← h] at hr
          rcases List.mem_cons.1 hr with hr | hr
          · rw [hr]; exact ⟨rfl, rfl⟩
          · exact ih rs' hrec r hr
    · rw [if_neg hidx] at h
      exact ih rs h r hr

/-- A candidate that passes the bound check and resolves to a chunk shows
up in the formatted results. -/
theorem formatResults_mem (chunks : List Chunk) (oq fq : String) :
    ∀ (l : List (Nat × ℚ × Int)) (rs : List SearchResult),
      formatResults chunks oq fq l = some rs →
      ∀ (i : Nat) (sc : ℚ) (idx : Int) (c : Chunk), (i, sc, idx) ∈ l →
        idx < (chunks.length : Int) → pyIndex chunks idx = some c →
        buildResult (i + 1) sc oq fq c ∈ rs := by
  intro l
  induction l with
  | nil => intro rs h i sc idx c hmem; exact absurd hmem (by simp)
  | cons hd tl ih =>
    rcases hd with ⟨j, sj, idxj⟩
    intro rs h i sc idx c hmem hidx hpyc
    unfold formatResults at h
    by_cases hj : idxj < (chunks.length : Int)
    · rw [if_pos hj] at h
      cases hpy : pyIndex chunks idxj with
      | none => rw [hpy] at h; exact absurd h (by simp)
      | some cj =>
        rw [hpy] at h
        cases hrec : formatResults chunks oq fq tl with
        | none => rw [hrec] at h; exact absurd h (by simp)
        | some rs' =>
          rw [hrec] at h
          simp only [Option.map_some', Option.some.injEq] at h
          rw [← h]
          rcases List.mem_cons.1 hmem with heq | hmem'
          · have hi : i = j := congrArg Prod.fst heq
            have hrest : (sc, idx) = (sj, idxj) := congrArg Prod.snd heq
            have hsc : sc = sj := congrArg Prod.fst hrest
            have hidxe : idx = idxj := congrArg Prod.snd hrest
            have hc : cj = c := by
              rw [hidxe] at hpyc; rw [hpyc] at hpy; exact (Option.some.injEq _ _ ▸ hpy).symm
            rw [hi, hsc, hc]
            exact List.mem_cons_self _ _
          · exact List.mem_cons_of_mem _ (ih rs' hrec i sc idx c hmem' hidx hpyc)
    · rw [if_neg hj] at h
      rcases List.mem_cons.1 hmem with heq | hmem'
      · exact absurd (by
          have hidxe : idx = idxj := by
            have := congrArg (fun t : Nat × ℚ × Int => t.2.2) heq
            exact this
          rw [← hidxe]; exact hidx) hj
      · exact ih rs h i sc idx c hmem' hidx hpyc

/-! ## Search-level helper lemmas -/

/-- `search` written as `Option.map` of the post-processing pipeline over
the formatting stage. -/
theorem search_eq (st : RetrieverState) (q : String) (k : Nat) (rq s : Bool) :
    search st q k rq s =
      (formatResults st.chunks q (refineStep st.refiner rq q)
          ((st.retrieve (refineStep st.refiner rq q) k).enum)).map
        (fun results => reRank (sortDesc (results.map (fun r =>
          { r with score := boostScore (refineStep st.refiner rq q) q r })))) := by
  unfold search searchRequest
  cases h : formatResults st.chunks q (refineStep st.refiner rq q)
      ((st.retrieve (refineStep st.refiner rq q) k).enum) <;> simp [h]

/-- Every result of a successful `search` carries the original query and
the refined query. -/
theorem search_mem_fields (st : RetrieverState) (q : String) (k : Nat)
    (rq s : Bool) (res : List SearchResult) (h : search st q k rq s = some res) :
    ∀ r ∈ res, r.original_query = q ∧
      r.final_query = refineStep st.refiner rq q := by
  rw [search_eq] at h
  cases hf : formatResults st.chunks q (refineStep st.refiner rq q)
      ((st.retrieve (refineStep st.refiner rq q) k).enum) with
  | none => rw [hf] at h; exact absurd h (by simp)
  | some results =>
    rw [hf] at h
    simp only [Option.map_some', Option.some.injEq] at h
    intro r hr
    rw [← h] at hr
    rcases mem_reRank_inv hr with ⟨r0, hr0, _, _, ho, hfq, _⟩
    rcases List.mem_map.1 (mem_sortDesc.1 hr0) with ⟨r1, hr1, hmap⟩
    have hfields := formatResults_fields _ _ _ _ _ hf r1 hr1
    rw [← hmap] at ho hfq
    exact ⟨ho.trans hfields.1, hfq.trans hfields.2⟩

/-- A successful `search` returns exactly one result per retrieved
candidate whose index passes the bound check; nothing is merged or
dropped beyond that check. -/
theorem search_length (st : RetrieverState) (q : String) (k : Nat)
    (rq s : Bool) (res : List SearchResult) (h : search st q k rq s = some res) :
    res.length = ((st.retrieve (refineStep st.refiner rq q) k).filter
      (fun pr => decide (pr.2 < (st.chunks.length : Int)))).length := by
  rw [search_eq] at h
  cases hf : formatResults st.chunks q (refineStep st.refiner rq q)
      ((st.retrieve (refineStep st.refiner rq q) k).enum) with
  | none => rw [hf] at h; exact absurd h (by simp)
  | some results =>
    rw [hf] at h
    simp only [Option.map_some', Option.some.injEq] at h
    rw [← h, reRank_length, sortDesc_length, List.length_map,
      formatResults_length _ _ _ _ _ hf]
    exact length_filter_enum
      (fun pr : ℚ × Int => decide (pr.2 < (st.chunks.length : Int)))
      (st.retrieve (refineStep st.refiner rq q) k)

/-! ## Claims -/

/-- C1 (counterexample): two retrieved chunks with identical content and
the alias titles "Wi-Fi"/"wifi" (same normalized dedup key) are NOT
collapsed by `search`: both come back as separate results, and no result
carries an alias list (the result record has no such field). -/
theorem search_dedup_counterexample :
    specNormalizeTitle "Wi-Fi" = specNormalizeTitle "wifi" ∧
    chunkWiFi.content = chunkwifi.content ∧
    search stDup "anything" 2 false false = some dupRes ∧
    dupRes.length = 2 ∧
    dupRes.map SearchResult.page_title = ["Wi-Fi", "wifi"] := by
  refine ⟨by decide, by decide, by decide, by decide, by decide⟩

/-- C1 (amended): `search` performs no deduplication whatsoever: a
successful call returns exactly one result per retrieved candidate whose
index passes the bound check, so results with identical content or
alias titles are never merged and no alias list exists. -/
theorem search_never_merges (st : RetrieverState) (q : String) (k : Nat)
    (rq s : Bool) (res : List SearchResult) (h : search st q k rq s = some res) :
    res.length = ((st.retrieve (refineStep st.refiner rq q) k).filter
      (fun pr => decide (pr.2 < (st.chunks.length : Int)))).length :=
  search_length st q k rq s res h

/-- Witness for C1 (amended) at the duplicate corpus. -/
theorem search_never_merges_witness :
    search stDup "anything" 2 false false = some dupRes ∧
    dupRes.length =
      ((stDup.retrieve (refineStep stDup.refiner false "anything") 2).filter
        (fun pr => decide (pr.2 < (stDup.chunks.length : Int)))).length :=
  ⟨by decide, search_never_merges stDup "anything" 2 false false dupRes (by decide)⟩

/-- C2 (counterexample): `load_index` succeeds (returns `true`) on a
store whose index holds 1 vector while the metadata holds 2 chunks — the
vector/chunk count mismatch is not detected. -/
theorem load_index_mismatch_counterexample :
    (load_index demoStore).1 = true ∧
    (load_index demoStore).2.1 = some ⟨1⟩ ∧
    (load_index demoStore).2.2 = some [cAlpha, cBeta] ∧
    ¬([cAlpha, cBeta].length = (FaissIndex.mk 1).ntotal) := by
  refine ⟨by decide, by decide, by decide, by decide⟩

/-- C2 (amended): `load_index` returns `true` exactly when both files are
present and load, performing no comparison between the vector count and
the chunk count; either missing file yields `false`. -/
theorem load_index_no_count_check (ix : FaissIndex) (chunks : List Chunk)
    (m : Option (List Chunk)) :
    (load_index ⟨some ix, some chunks⟩).1 = true ∧
    (load_index ⟨none, m⟩).1 = false ∧
    (load_index ⟨some ix, none⟩).1 = false :=
  ⟨rfl, rfl, rfl⟩

/-- C3 (counterexample): with `top_k = 2`, `search` asks the index for
exactly 2 neighbours — not `2 * 3` — and its output is built from the
`k = 2` answer row, untouched by what the index would return for
`k = 6`. -/
theorem search_overfetch_counterexample :
    (searchRequest stOverA "qq" 2 false).2 = 2 ∧
    (searchRequest stOverA "qq" 2 false).2 ≠ 2 * 3 ∧
    stOverA.retrieve "qq" (2 * 3) = [(8, 1)] ∧
    (search stOverA "qq" 2 false false).map (List.map SearchResult.page_title) =
      some ["Alpha"] := by
  refine ⟨by decide, by decide, by decide, by decide⟩

/-- C3 (amended): there is no over-fetch and no deduplication switch:
`search` always requests exactly `top_k` neighbours, and its result
depends on the index capability only through that single `top_k`
request. -/
theorem search_requests_exactly_topk (st st' : RetrieverState) (q : String)
    (k : Nat) (rq s : Bool) (hchunks : st.chunks = st'.chunks)
    (href : st.refiner = st'.refiner)
    (hret : st.retrieve (refineStep st.refiner rq q) k =
      st'.retrieve (refineStep st.refiner rq q) k) :
    (searchRequest st q k rq).2 = k ∧
    search st q k rq s = search st' q k rq s := by
  refine ⟨rfl, ?_⟩
  rw [search_eq, search_eq, ← href, ← hchunks, ← hret]

/-- Witness for C3 (amended): two retrievers agreeing only on the
`k = 2` row produce identical searches at `top_k = 2`. -/
theorem search_requests_exactly_topk_witness :
    stOverA.chunks = stOverB.chunks ∧ stOverA.refiner = stOverB.refiner ∧
    stOverA.retrieve (refineStep stOverA.refiner false "qq") 2 =
      stOverB.retrieve (refineStep stOverA.refiner false "qq") 2 ∧
    ((searchRequest stOverA "qq" 2 false).2 = 2 ∧
      search stOverA "qq" 2 false false = search stOverB "qq" 2 false false) :=
  ⟨rfl, rfl, by decide,
    search_requests_exactly_topk stOverA stOverB "qq" 2 false false rfl rfl
      (by decide)⟩

/-- C4: if the refiner raises on every call, `search` with refinement
requested never propagates the exception, returns exactly the list the
refinement-free call returns, and every result has `final_query` equal to
`original_query` (both being the raw query). -/
theorem refiner_failure_transparent (st : RetrieverState)
    (f : String → Except String String) (err : String → String)
    (href : st.refiner = some f)
    (hfail : ∀ x, f x = Except.error (err x))
    (q : String) (k : Nat) (s s' : Bool) :
    search st q k true s = search st q k false s' ∧
    ∀ res, search st q k true s = some res →
      ∀ r ∈ res, r.final_query = r.original_query ∧ r.original_query = q := by
  have hre : refineStep st.refiner true q = q := by
    simp [refineStep, href, hfail q]
  have hre2 : refineStep st.refiner false q = q := rfl
  constructor
  · rw [search_eq, search_eq, hre, hre2]
  · intro res hres r hr
    have hf := search_mem_fields st q k true s res hres r hr
    refine ⟨?_, hf.1⟩
    rw [hf.2, hre, hf.1]

/-- Witness for C4 at a concrete always-raising refiner. -/
theorem refiner_failure_transparent_witness :
    stFail.refiner = some (fun _ => Except.error "boom") ∧
    search stFail "qq" 2 true false = search stFail "qq" 2 false true :=
  ⟨rfl, (refiner_failure_transparent stFail (fun _ => Except.error "boom")
    (fun _ => "boom") rfl (fun _ => rfl) "qq" 2 false true).1⟩

/-- C5: under the FAISS contract that the answer row has at most `top_k`
entries, a successful `search` returns at most `top_k` results. -/
theorem search_length_le_topk (st : RetrieverState) (q : String) (k : Nat)
    (rq s : Bool)
    (hfaiss : (st.retrieve (refineStep st.refiner rq q) k).length ≤ k)
    (res : List SearchResult) (h : search st q k rq s = some res) :
    res.length ≤ k := by
  rw [search_length st q k rq s res h]
  exact le_trans (List.length_filter_le _ _) hfaiss

/-- Witness for C5 at the two-chunk retriever. -/
theorem search_length_le_topk_witness :
    (stPlain.retrieve (refineStep stPlain.refiner false "qq") 2).length ≤ 2 ∧
    search stPlain "qq" 2 false false = some demoRes ∧ demoRes.length ≤ 2 :=
  ⟨by decide, by decide,
    search_length_le_topk stPlain "qq" 2 false false (by decide) demoRes
      (by decide)⟩

/-- C6: in every successful `search` output the rank fields are the
contiguous sequence `1..N` and the boosted scores are in descending
(non-increasing) order. -/
theorem search_ranks_contiguous_sorted (st : RetrieverState) (q : String)
    (k : Nat) (rq s : Bool) (res : List SearchResult)
    (h : search st q k rq s = some res) :
    res.map SearchResult.rank = (List.range res.length).map (fun n => n + 1) ∧
    List.Pairwise (fun a b : ℚ => b ≤ a) (res.map SearchResult.score) := by
  rw [search_eq] at h
  cases hf : formatResults st.chunks q (refineStep st.refiner rq q)
      ((st.retrieve (refineStep st.refiner rq q) k).enum) with
  | none => rw [hf] at h; exact absurd h (by simp)
  | some results =>
    rw [hf] at h
    simp only [Option.map_some', Option.some.injEq] at h
    constructor
    · rw [← h, reRank_map_rank, reRank_length]
    · rw [← h, reRank_map_score]
      exact List.pairwise_map.2 (sortDesc_pairwise _)

/-- Witness for C6 at the two-chunk retriever. -/
theorem search_ranks_contiguous_sorted_witness :
    search stPlain "qq" 2 false false = some demoRes ∧
    (demoRes.map SearchResult.rank =
        (List.range demoRes.length).map (fun n => n + 1) ∧
      List.Pairwise (fun a b : ℚ => b ≤ a)
        (demoRes.map SearchResult.score)) :=
  ⟨by decide,
    search_ranks_contiguous_sorted stPlain "qq" 2 false false demoRes
      (by decide)⟩

/-- C7: the scoring policy is multiplicative with a strictly positive
total factor, so the boosted score keeps the sign of the base cosine
similarity. -/
theorem boost_multipliers_positive (query original_query : String)
    (r : SearchResult) :
    0 < totalFactor query original_query r ∧
    boostScore query original_query r =
      r.score * totalFactor query original_query r ∧
    (0 < r.score → 0 < boostScore query original_query r) ∧
    (r.score < 0 → boostScore query original_query r < 0) ∧
    (r.score = 0 → boostScore query original_query r = 0) := by
  refine ⟨totalFactor_pos _ _ _, boostScore_eq_mul _ _ _, ?_, ?_, ?_⟩
  · intro h
    rw [boostScore_eq_mul]
    exact mul_pos h (totalFactor_pos _ _ _)
  · intro h
    rw [boostScore_eq_mul]
    exact mul_neg_of_neg_of_pos h (totalFactor_pos _ _ _)
  · intro h
    rw [boostScore_eq_mul, h, zero_mul]

/-- Witness for C7 at a concrete positive-score result. -/
theorem boost_multipliers_positive_witness :
    0 < demoResult.score ∧ 0 < boostScore "qq" "qq" demoResult :=
  ⟨by decide, (boost_multipliers_positive "qq" "qq" demoResult).2.2.1 (by decide)⟩

/-- C8: `search` is deterministic for a fixed index snapshot, fixed query
and fixed refiner output: two invocations against capabilities that agree
on the snapshot, the refiner and the single issued index request return
identical result lists, independently of the logging flag. -/
theorem search_deterministic (st st' : RetrieverState) (q : String) (k : Nat)
    (rq s s' : Bool) (hchunks : st.chunks = st'.chunks)
    (href : st.refiner = st'.refiner)
    (hret : st.retrieve (refineStep st.refiner rq q) k =
      st'.retrieve (refineStep st.refiner rq q) k) :
    search st q k rq s = search st' q k rq s' := by
  rw [search_eq, search_eq, ← href, ← hchunks, ← hret]

/-- Witness for C8: two concrete invocations with different logging flags
and capabilities that differ outside the issued request coincide. -/
theorem search_deterministic_witness :
    stOverA.chunks = stOverB.chunks ∧ stOverA.refiner = stOverB.refiner ∧
    stOverA.retrieve (refineStep stOverA.refiner false "qq") 2 =
      stOverB.retrieve (refineStep stOverA.refiner false "qq") 2 ∧
    search stOverA "qq" 2 false false = search stOverB "qq" 2 false true :=
  ⟨rfl, rfl, by decide,
    search_deterministic stOverA stOverB "qq" 2 false false true rfl rfl
      (by decide)⟩

/-- C9: the bound check `idx < len(chunks)` does not stop the `-1`
padding entries FAISS emits when the index holds fewer than `top_k`
vectors: `-1 < len(chunks)` holds, Python negative indexing resolves `-1`
to the last corpus chunk, and a successful `search` then includes a
result built from that last chunk for the non-existent neighbour. -/
theorem negative_padding_yields_last_chunk (st : RetrieverState) (q : String)
    (k : Nat) (rq s : Bool) (res : List SearchResult) (c : Chunk) (sc : ℚ)
    (hlast : st.chunks.getLast? = some c)
    (hmem : (sc, (-1 : Int)) ∈ st.retrieve (refineStep st.refiner rq q) k)
    (h : search st q k rq s = some res) :
    ((-1 : Int) < (st.chunks.length : Int)) ∧
    pyIndex st.chunks (-1) = some c ∧
    ∃ r ∈ res, r.full_chunk = c := by
  have hlen : 0 < st.chunks.length := by
    cases hc : st.chunks with
    | nil => rw [hc] at hlast; exact absurd hlast (by simp)
    | cons a l => simp [hc]
  have hneg : ((-1 : Int) < (st.chunks.length : Int)) := by omega
  have hpy : pyIndex st.chunks (-1) = some c := by
    unfold pyIndex
    rw [if_neg (by omega), if_pos (by omega)]
    have ht : ((st.chunks.length : Int) + (-1)).toNat = st.chunks.length - 1 := by
      omega
    rw [ht, ← List.getLast?_eq_get?]
    exact hlast
  rw [search_eq] at h
  cases hf : formatResults st.chunks q (refineStep st.refiner rq q)
      ((st.retrieve (refineStep st.refiner rq q) k).enum) with
  | none => rw [hf] at h; exact absurd h (by simp)
  | some results =>
    rw [hf] at h
    simp only [Option.map_some', Option.some.injEq] at h
    rcases exists_mem_enum hmem with ⟨i, hi⟩
    have hbuild := formatResults_mem _ _ _ _ _ hf i sc (-1) c hi hneg hpy
    have hboost :
        ({ buildResult (i + 1) sc q (refineStep st.refiner rq q) c with
            score := boostScore (refineStep st.refiner rq q) q
              (buildResult (i + 1) sc q (refineStep st.refiner rq q) c) }) ∈
          results.map (fun r =>
            { r with score := boostScore (refineStep st.refiner rq q) q r }) :=
      List.mem_map_of_mem _ hbuild
    rcases mem_reRank_of_mem (mem_sortDesc.2 hboost) with ⟨r', hr', _, _, hfc⟩
    refine ⟨hneg, hpy, r', ?_, ?_⟩
    · rw [← h]; exact hr'
    · rw [hfc]; rfl

/-- Witness for C9: a one-chunk corpus queried with `top_k = 2` whose
padding entry surfaces the last (only) chunk a second time. -/
theorem negative_padding_yields_last_chunk_witness :
    stPad.chunks.getLast? = some cAlpha ∧
    ((4 : ℚ), (-1 : Int)) ∈ stPad.retrieve (refineStep stPad.refiner false "qq") 2 ∧
    search stPad "qq" 2 false false = some padRes ∧
    (((-1 : Int) < (stPad.chunks.length : Int)) ∧
      pyIndex stPad.chunks (-1) = some cAlpha ∧
      ∃ r ∈ padRes, r.full_chunk = cAlpha) :=
  ⟨by decide, by decide, by decide,
    negative_padding_yields_last_chunk stPad "qq" 2 false false padRes cAlpha 4
      (by decide) (by decide) (by decide)⟩

/-- When the whole query-word set occurs in the title words, the
exact-match multiplier reaches its ceiling `1 + ceil`. -/
theorem exactFactor_full (w tw : Finset (List Char)) (ceil : ℚ)
    (hne : w.Nonempty) (hsub : w ⊆ tw) :
    exactFactor w tw ceil = 1 + ceil := by
  unfold exactFactor matchRatio
  rw [Finset.inter_eq_left.2 hsub]
  have hcard : w.card ≠ 0 := Nat.pos_iff_ne_zero.1 hne.card_pos
  rw [if_pos hne, if_pos hcard,
    div_self (by exact_mod_cast hcard : ((w.card : ℚ) ≠ 0)), one_mul]

/-- C10: when no refinement takes place, the final query-word set equals
the original one, both exact-match boosts fire on the same title overlap,
and a full title match multiplies the score by
`(1 + 1/2) * (1 + 3/10) = 39/20 = 1.95`. -/
theorem no_refinement_double_exact_boost (st : RetrieverState) (rq : Bool)
    (q : String) (r : SearchResult)
    (hnoref : refineStep st.refiner rq q = q)
    (hne : (qwords q).Nonempty)
    (hsub : qwords q ⊆ titleWords (pyLower r.page_title.data)) :
    qwords (refineStep st.refiner rq q) = qwords q ∧
    boostScore (refineStep st.refiner rq q) q r =
      r.score * (preFactor q q r * (39/20)) := by
  refine ⟨by rw [hnoref], ?_⟩
  rw [hnoref, boostScore_eq_mul]
  unfold totalFactor
  rw [exactFactor_full _ _ _ hne hsub, exactFactor_full _ _ _ hne hsub]
  ring_nf

/-- Witness for C10: with no refiner, query "alpha" fully matches the
title "Alpha". -/
theorem no_refinement_double_exact_boost_witness :
    refineStep stPlain.refiner true "alpha" = "alpha" ∧
    (qwords "alpha").Nonempty ∧
    qwords "alpha" ⊆ titleWords (pyLower demoResult.page_title.data) ∧
    (qwords (refineStep stPlain.refiner true "alpha") = qwords "alpha" ∧
      boostScore (refineStep stPlain.refiner true "alpha") "alpha" demoResult =
        demoResult.score * (preFactor "alpha" "alpha" demoResult * (39/20))) :=
  ⟨rfl, by decide, by decide,
    no_refinement_double_exact_boost stPlain true "alpha" demoResult rfl
      (by decide) (by decide)⟩

end ArchBot
